import Mathlib

/-!
# HomeworkTracker: the dashboard's list synchronisation and derived view

A shallow embedding of `src/app/dashboard/index.jsx`: the derived view
(`filteredHomeworks`), the due-date classification (`getDueDateColor`,
`getCountdownText`), the two write handlers (`handleSaveHomework`,
`handleDelete`) and the callback of the Firestore listener.

Conventions of the embedding.

* A JavaScript `Date` is represented by its time value, an `Int` number of
  milliseconds since the epoch.  The ISO-8601 string that
  `dueDate.toISOString()` writes into a document is represented by the time
  value it denotes, so `new Date(item.dueDate)` is the identity on the
  representation.  Only valid dates are represented.
* Time values are below `2 ^ 53` in magnitude, so `due - now` is exact in
  double arithmetic, and the rounding error of the division by `86400000`
  (at most `2 ^ (-27)`) is smaller than the distance `1 / 86400000` of a
  non-integer quotient to the nearest integer: `Math.ceil` of the double
  quotient is the ceiling of the exact quotient, which is what is modelled.
* React state is passed explicitly; a handler returns the state after the call
  together with the remote-store calls and alerts it issued, in order.
* `String.prototype.toLowerCase` is a parameter (`Engine`), fixed on ASCII
  only; the client-side validation of `doc(...)` in the store SDK is modelled
  by `docThrows`.
-/

namespace HomeworkTracker

/-! ## Data model -/

/-- A homework item of the snapshot: `{ id: doc.id, ...doc.data() }` for a
document written by `handleSaveHomework`.  `description` is `none` when the
field is missing. -/
structure Homework where
  id : String
  title : String
  description : Option String
  dueDate : Int
  userId : String
  createdAt : Int
  deriving DecidableEq, Repr

/-! ## JavaScript library routines used by the dashboard -/

/-- A string all of whose characters are ASCII. -/
def IsAscii (s : String) : Prop :=
  ∀ c ∈ s.data, c.toNat < 128

instance (s : String) : Decidable (IsAscii s) := by
  unfold IsAscii
  exact inferInstance

/-- The JavaScript engine's `String.prototype.toLowerCase`.  It maps by the
Unicode case tables (with their context rule for a final sigma), which are not
part of the repository, so the function is a parameter of the embedding.  What
is fixed about it is its action on ASCII: there it maps `A`-`Z` to `a`-`z` and
leaves every other character, which is what `Char.toLower` does.  Strings are sequences of Unicode characters;
for well-formed strings a match of `includes` on UTF-16 code units starts and
ends at character boundaries, so matching on characters is the same. -/
structure Engine where
  toLowerCase : String → String
  toLowerCase_ascii : ∀ s : String, IsAscii s →
    toLowerCase s = String.mk (s.data.map Char.toLower)

/-- An engine restricted to ASCII case folding; it agrees with every engine on
ASCII strings and serves to evaluate the definitions on such inputs. -/
def asciiEngine : Engine :=
  ⟨fun s => String.mk (s.data.map Char.toLower), fun _ _ => rfl⟩

/-- Lower-casing of a Latin-1 character: the ASCII letters and the accented
capitals `À`-`Þ` (without the sign `×`) go to their small letters. -/
def latin1LowerChar (c : Char) : Char :=
  if 192 ≤ c.toNat ∧ c.toNat ≤ 222 ∧ c.toNat ≠ 215 then Char.ofNat (c.toNat + 32)
  else c.toLower

/-- An engine that also folds the accented Latin-1 capitals, as the Unicode
tables do; it serves to evaluate the definitions on accented inputs. -/
def latin1Engine : Engine :=
  ⟨fun s => String.mk (s.data.map latin1LowerChar), by
    intro s hs
    show String.mk (s.data.map latin1LowerChar) = String.mk (s.data.map Char.toLower)
    congr 1
    apply List.map_congr_left
    intro c hc
    have h := hs c hc
    unfold latin1LowerChar
    rw [if_neg (by omega)]⟩

/-- `s.includes(q)`: some suffix of `s` starts with `q`. -/
def includes (s q : String) : Bool :=
  s.data.tails.any (fun t => q.data.isPrefixOf t)

/-- Insertion step of `arraySort`: `x` goes before the first element it does
not compare greater than. -/
def insertByCompare {α : Type} (comparefn : α → α → Int) (x : α) : List α → List α
  | [] => [x]
  | y :: ys =>
    if comparefn x y ≤ 0 then x :: y :: ys
    else y :: insertByCompare comparefn x ys

/-- `arr.sort(comparefn)`.  ECMAScript requires the sort to be stable and to
order by the sign of `comparefn`; for a comparator that is a total preorder
the result of a stable sort is unique, so this insertion sort returns the
array the engine returns. -/
def arraySort {α : Type} (comparefn : α → α → Int) : List α → List α
  | [] => []
  | x :: xs => insertByCompare comparefn x (arraySort comparefn xs)

/-- `Math.ceil(a / b)` for a positive divisor. -/
def mathCeilDiv (a b : Int) : Int :=
  -((-a) / b)

/-! ## Derived view -/

/-- The filter callback of `filteredHomeworks`, with `hw.description || ""`. -/
def matchesSearch (engine : Engine) (searchQuery : String) (hw : Homework) : Bool :=
  includes (engine.toLowerCase hw.title) (engine.toLowerCase searchQuery) ||
  includes (engine.toLowerCase (hw.description.getD "")) (engine.toLowerCase searchQuery)

/-- The comparator `(a, b) => new Date(a.dueDate) - new Date(b.dueDate)`. -/
def compareDueDate (a b : Homework) : Int :=
  a.dueDate - b.dueDate

/-- The derived view `filteredHomeworks`: filter, then sort by due date. -/
def filteredHomeworks (engine : Engine) (homeworks : List Homework) (searchQuery : String) :
    List Homework :=
  arraySort compareDueDate (homeworks.filter (matchesSearch engine searchQuery))

/-- The search test in the words of the specification: the lower-cased query
occurs as a contiguous block of the lower-cased title, or of the lower-cased
description, a missing description counting as the empty string. -/
def ContainsQuery (engine : Engine) (searchQuery : String) (hw : Homework) : Prop :=
  (engine.toLowerCase searchQuery).data <:+: (engine.toLowerCase hw.title).data ∨
  (engine.toLowerCase searchQuery).data <:+:
    (engine.toLowerCase (hw.description.getD "")).data

instance (engine : Engine) (searchQuery : String) (hw : Homework) :
    Decidable (ContainsQuery engine searchQuery hw) := by
  unfold ContainsQuery
  exact inferInstance

/-- The search test on ASCII text with the folding of letters spelled out: the
query, its capitals `A`-`Z` replaced by `a`-`z`, occurs as a contiguous block
of the title or of the description treated the same way. -/
def ContainsQueryAscii (searchQuery : String) (hw : Homework) : Prop :=
  searchQuery.data.map Char.toLower <:+: hw.title.data.map Char.toLower ∨
  searchQuery.data.map Char.toLower <:+: (hw.description.getD "").data.map Char.toLower

instance (searchQuery : String) (hw : Homework) :
    Decidable (ContainsQueryAscii searchQuery hw) := by
  unfold ContainsQueryAscii
  exact inferInstance

/-- Non-decreasing due dates along a list: what the sort establishes. -/
def DueDateOrdered (l : List Homework) : Prop :=
  l.Pairwise (fun a b => a.dueDate ≤ b.dueDate)

/-! ## Due-date classification -/

/-- The constant `1000 * 60 * 60 * 24`. -/
def msPerDay : Int := 1000 * 60 * 60 * 24

/-- The local `diffDays` of both classifiers. -/
def diffDays (due now : Int) : Int :=
  mathCeilDiv (due - now) msPerDay

/-- The function `getDueDateColor`; `now` is the value of `new Date()`. -/
def getDueDateColor (now dueDateStr : Int) : String :=
  if diffDays dueDateStr now < 0 then "#e53935"
  else if diffDays dueDateStr now ≤ 7 then "#fb8c00"
  else "#43a047"

/-- The function `getCountdownText`; `now` is the value of `new Date()`.
Every template literal of the source starts with a space. -/
def getCountdownText (now dueDateStr : Int) : String :=
  if diffDays dueDateStr now < 0 then
    " Overdue by " ++ toString (diffDays dueDateStr now).natAbs ++ " day(s)"
  else if diffDays dueDateStr now = 0 then " Due today!"
  else if diffDays dueDateStr now = 1 then " Due tomorrow"
  else " " ++ toString (diffDays dueDateStr now) ++ " days left"

/-- A countdown text is the overdue one when it starts with " Overdue by ". -/
def IsOverdueText (text : String) : Prop :=
  " Overdue by ".data <+: text.data

instance (text : String) : Decidable (IsOverdueText text) := by
  unfold IsOverdueText
  exact inferInstance

/-! ## Write handlers -/

/-- A value stored in a document field. -/
inductive FieldValue where
  | str (s : String)
  | isoString (ms : Int)
  | date (ms : Int)
  deriving DecidableEq, Repr

/-- A call to the remote store: `updateDoc(doc(db, coll, id), payload)`,
`addDoc(collection(db, coll), payload)`, `deleteDoc(doc(db, coll, id))`. -/
inductive StoreCall where
  | updateDoc (coll id : String) (payload : List (String × FieldValue))
  | addDoc (coll : String) (payload : List (String × FieldValue))
  | deleteDoc (coll id : String)
  deriving DecidableEq, Repr

/-- What a handler does to the outside: a store call or `Alert.alert`. -/
inductive Effect where
  | store (call : StoreCall)
  | alert (title message : String)
  deriving DecidableEq, Repr

/-- The component state read or written by the handlers. -/
structure DashboardState where
  title : String
  description : String
  dueDate : Int
  editingId : Option String
  homeworks : List Homework
  searchQuery : String
  deriving DecidableEq, Repr

/-- The surroundings of a handler call: `auth.currentUser` (its `uid`, or
`none` when nobody is signed in), the clock when the payload is built, the
clock when the form is reset after the awaited call, and the answer of the
remote store to a call (`none`: the promise resolves; `some cause`: it rejects
with that cause). -/
structure Env where
  currentUser : Option String
  now : Int
  nowAfter : Int
  storeRejects : StoreCall → Option String

/-- The state after a handler call and the effects it issued, in order. -/
structure Outcome where
  state : DashboardState
  effects : List Effect
  deriving DecidableEq, Repr

/-- The test `if (editingId)`: `null` and the empty string are falsy. -/
def truthyId (editingId : Option String) : Option String :=
  match editingId with
  | none => none
  | some id => if id = "" then none else some id

/-- The non-empty segments of a path argument of the store SDK:
`path.split('/').filter(segment => segment.length > 0)`. -/
def pathSegments (path : String) : List (List Char) :=
  (path.data.splitOnP (fun c => c == '/')).filter (fun segment => !segment.isEmpty)

/-- Whether `doc(db, coll, id)` throws instead of returning a reference.  The
SDK rejects an empty first path argument and an argument containing "//",
joins the non-empty segments of its arguments and rejects a path with an odd
number of segments, a document path being a sequence of collection/document
pairs: `doc(db, "homeworks", "")` and `doc(db, "homeworks", "a/b")` throw. -/
def docThrows (coll id : String) : Bool :=
  decide (coll = "") || decide (['/', '/'] <:+: coll.data) ||
    decide (['/', '/'] <:+: id.data) ||
    ((pathSegments coll).length + (pathSegments id).length) % 2 == 1

/-- The payload of the update branch. -/
def updatePayload (st : DashboardState) : List (String × FieldValue) :=
  [("title", .str st.title), ("description", .str st.description),
   ("dueDate", .isoString st.dueDate)]

/-- The payload of the create branch. -/
def createPayload (env : Env) (uid : String) (st : DashboardState) : List (String × FieldValue) :=
  [("title", .str st.title), ("description", .str st.description),
   ("dueDate", .isoString st.dueDate), ("userId", .str uid), ("createdAt", .date env.now)]

/-- The form reset after a successful store call: `setTitle("")`,
`setDescription("")`, `setDueDate(new Date())`. -/
def resetForm (env : Env) (st : DashboardState) : DashboardState :=
  { st with title := "", description := "", dueDate := env.nowAfter }

/-- The handler `handleSaveHomework`.  An exception thrown inside `try`, by
`doc(...)` or by reading `auth.currentUser.uid` of `null`, is caught like a
rejection of the store. -/
def handleSaveHomework (env : Env) (st : DashboardState) : Outcome :=
  if st.title = "" then
    ⟨st, [.alert "Error" "Please enter a title!"]⟩
  else
    match truthyId st.editingId with
    | some id =>
      if docThrows "homeworks" id then
        ⟨st, [.alert "Error" "Something went wrong"]⟩
      else
        match env.storeRejects (.updateDoc "homeworks" id (updatePayload st)) with
        | none =>
          ⟨resetForm env { st with editingId := none },
           [.store (.updateDoc "homeworks" id (updatePayload st)),
            .alert "Updated" "Homework updated"]⟩
        | some _ =>
          ⟨st, [.store (.updateDoc "homeworks" id (updatePayload st)),
                .alert "Error" "Something went wrong"]⟩
    | none =>
      match env.currentUser with
      | none => ⟨st, [.alert "Error" "Something went wrong"]⟩
      | some uid =>
        match env.storeRejects (.addDoc "homeworks" (createPayload env uid st)) with
        | none =>
          ⟨resetForm env st,
           [.store (.addDoc "homeworks" (createPayload env uid st)),
            .alert "Added" "Homework added"]⟩
        | some _ =>
          ⟨st, [.store (.addDoc "homeworks" (createPayload env uid st)),
                .alert "Error" "Something went wrong"]⟩

/-- The handler `handleDelete`.  An exception thrown by `doc(...)` inside
`try` is caught like a rejection of the store. -/
def handleDelete (env : Env) (id : String) (st : DashboardState) : Outcome :=
  if docThrows "homeworks" id then
    ⟨st, [.alert "Error" "Could not delete"]⟩
  else
    match env.storeRejects (.deleteDoc "homeworks" id) with
    | none =>
      ⟨st, [.store (.deleteDoc "homeworks" id), .alert "Deleted" "Homework removed"]⟩
    | some _ =>
      ⟨st, [.store (.deleteDoc "homeworks" id), .alert "Error" "Could not delete"]⟩

/-- The store calls among the effects, in order. -/
def storeCalls (effects : List Effect) : List StoreCall :=
  effects.filterMap (fun e => match e with
    | .store call => some call
    | .alert _ _ => none)

/-- The alerts among the effects, in order: what the user is told. -/
def alerts (effects : List Effect) : List (String × String) :=
  effects.filterMap (fun e => match e with
    | .store _ => none
    | .alert title message => some (title, message))

/-! ## Firestore listener -/

/-- The value of `doc.data()`: the fields `handleSaveHomework` writes, and the
value of a stored field named `id` when the data has one.  Documents are
schemaless and `doc.id` is not among the stored fields, so the store accepts a
field of that name.  Further fields are copied by the spread but never read by
the dashboard; they are not represented. -/
structure StoredData where
  title : String
  description : Option String
  dueDate : Int
  userId : String
  createdAt : Int
  id : Option String
  deriving DecidableEq, Repr

/-- A document of a query snapshot: the identifier `doc.id` the store assigned
to it and its stored fields `doc.data()`. -/
structure Doc where
  id : String
  data : StoredData
  deriving DecidableEq, Repr

/-- The object literal `{ id: doc.id, ...doc.data() }`.  The spread is
evaluated after the property `id`, so each stored field is written over what
the literal holds so far: a stored `id` replaces `doc.id`. -/
def snapshotItem (doc : Doc) : Homework :=
  { id := match doc.data.id with
      | none => doc.id
      | some storedId => storedId
    title := doc.data.title
    description := doc.data.description
    dueDate := doc.data.dueDate
    userId := doc.data.userId
    createdAt := doc.data.createdAt }

/-- The callback given to `onSnapshot`: map `snapshot.docs` to items, sort them
by due date, `setHomeworks(data)`. -/
def onSnapshotCallback (snapshotDocs : List Doc) (st : DashboardState) : DashboardState :=
  { st with homeworks := arraySort compareDueDate (snapshotDocs.map snapshotItem) }

/-- The values the state `homeworks` takes: `useState([])` at first, and
after that only what the callback of the listener installs, the single place
where `setHomeworks` is called. -/
inductive Installed : List Homework → Prop where
  | initial : Installed []
  | pushed (snapshotDocs : List Doc) :
      Installed (arraySort compareDueDate (snapshotDocs.map snapshotItem))

/-- The `keyExtractor` of the list: `(item) => item.id`. -/
def keyExtractor (item : Homework) : String :=
  item.id

/-! ## Library routines: basic facts -/

theorem includes_iff (s q : String) : includes s q = true ↔ q.data <:+: s.data := by
  unfold includes
  rw [List.any_eq_true, List.infix_iff_prefix_suffix]
  constructor
  · rintro ⟨t, ht, hp⟩
    exact ⟨t, List.isPrefixOf_iff_prefix.mp hp, (List.mem_tails _ _).mp ht⟩
  · rintro ⟨t, hp, ht⟩
    exact ⟨t, (List.mem_tails _ _).mpr ht, List.isPrefixOf_iff_prefix.mpr hp⟩

theorem matchesSearch_iff (engine : Engine) (searchQuery : String) (hw : Homework) :
    matchesSearch engine searchQuery hw = true ↔ ContainsQuery engine searchQuery hw := by
  unfold matchesSearch ContainsQuery
  rw [Bool.or_eq_true, includes_iff, includes_iff]

theorem isAscii_empty : IsAscii "" := by
  intro c hc
  cases hc

theorem toLowerCase_empty (engine : Engine) : engine.toLowerCase "" = "" :=
  engine.toLowerCase_ascii "" isAscii_empty

theorem matchesSearch_empty (engine : Engine) (hw : Homework) :
    matchesSearch engine "" hw = true := by
  rw [matchesSearch_iff]
  unfold ContainsQuery
  rw [toLowerCase_empty]
  exact Or.inl (List.nil_infix (l := (engine.toLowerCase hw.title).data))

theorem containsQuery_ascii_iff (engine : Engine) (searchQuery : String) (hw : Homework)
    (hq : IsAscii searchQuery) (ht : IsAscii hw.title)
    (hd : IsAscii (hw.description.getD "")) :
    ContainsQuery engine searchQuery hw ↔ ContainsQueryAscii searchQuery hw := by
  unfold ContainsQuery ContainsQueryAscii
  rw [engine.toLowerCase_ascii _ hq, engine.toLowerCase_ascii _ ht,
    engine.toLowerCase_ascii _ hd]

theorem insertByCompare_perm {α : Type} (comparefn : α → α → Int) (x : α) (l : List α) :
    (insertByCompare comparefn x l).Perm (x :: l) := by
  induction l with
  | nil => exact List.Perm.refl _
  | cons y ys ih =>
    unfold insertByCompare
    split
    · exact List.Perm.refl _
    · exact ((List.Perm.cons y ih).trans (List.Perm.swap x y ys))

theorem arraySort_perm {α : Type} (comparefn : α → α → Int) (l : List α) :
    (arraySort comparefn l).Perm l := by
  induction l with
  | nil => exact List.Perm.refl _
  | cons x xs ih =>
    unfold arraySort
    exact (insertByCompare_perm comparefn x _).trans (List.Perm.cons x ih)

theorem insertByCompare_ordered (x : Homework) (l : List Homework) (h : DueDateOrdered l) :
    DueDateOrdered (insertByCompare compareDueDate x l) := by
  unfold DueDateOrdered at *
  induction l with
  | nil => simp [insertByCompare]
  | cons y ys ih =>
    rw [List.pairwise_cons] at h
    unfold insertByCompare
    split
    · rename_i hxy
      unfold compareDueDate at hxy
      refine List.pairwise_cons.mpr ⟨?_, List.pairwise_cons.mpr h⟩
      intro z hz
      rcases List.mem_cons.mp hz with rfl | hz
      · omega
      · have := h.1 z hz
        omega
    · rename_i hxy
      unfold compareDueDate at hxy
      refine List.pairwise_cons.mpr ⟨?_, ih h.2⟩
      intro z hz
      rcases List.mem_cons.mp ((insertByCompare_perm compareDueDate x ys).mem_iff.mp hz) with rfl | hz
      · omega
      · exact h.1 z hz

theorem arraySort_ordered (l : List Homework) : DueDateOrdered (arraySort compareDueDate l) := by
  induction l with
  | nil => simp [arraySort, DueDateOrdered]
  | cons x xs ih =>
    unfold arraySort
    exact insertByCompare_ordered x _ ih

theorem insertByCompare_filter_dueDate (d : Int) (x : Homework) (l : List Homework) :
    (insertByCompare compareDueDate x l).filter (fun hw => decide (hw.dueDate = d)) =
      (x :: l).filter (fun hw => decide (hw.dueDate = d)) := by
  induction l with
  | nil => rfl
  | cons y ys ih =>
    unfold insertByCompare
    split
    · rfl
    · rename_i hxy
      unfold compareDueDate at hxy
      rw [List.filter_cons, ih]
      by_cases hy : y.dueDate = d
      · have hx : ¬ x.dueDate = d := by omega
        simp [List.filter_cons, hy, hx]
      · simp [List.filter_cons, hy]

theorem arraySort_filter_dueDate (d : Int) (l : List Homework) :
    (arraySort compareDueDate l).filter (fun hw => decide (hw.dueDate = d)) =
      l.filter (fun hw => decide (hw.dueDate = d)) := by
  induction l with
  | nil => rfl
  | cons x xs ih =>
    unfold arraySort
    rw [insertByCompare_filter_dueDate, List.filter_cons, List.filter_cons, ih]

theorem arraySort_of_ordered (l : List Homework) (h : DueDateOrdered l) :
    arraySort compareDueDate l = l := by
  unfold DueDateOrdered at h
  induction l with
  | nil => rfl
  | cons x xs ih =>
    rw [List.pairwise_cons] at h
    unfold arraySort
    rw [ih h.2]
    cases xs with
    | nil => rfl
    | cons y ys =>
      have := h.1 y (List.mem_cons_self _ _)
      unfold insertByCompare compareDueDate
      rw [if_pos (by omega)]

/-! ## Derived view: search filter and sort -/

/-- C1. For every snapshot and query, whatever the engine's lower-casing does
outside ASCII, the derived view is a rearrangement of exactly the snapshot
items whose lower-cased title or lower-cased description (missing description
read as the empty string) contains the lower-cased query as a substring: an
item is in the view if and only if it is in the snapshot and passes the test,
every passing item occurs in the view as often as in the snapshot, every
failing item not at all.  On ASCII text the test is containment after the
capitals `A`-`Z` of both sides are replaced by `a`-`z`. -/
theorem filteredHomeworks_exact (engine : Engine) (homeworks : List Homework)
    (searchQuery : String) :
    (filteredHomeworks engine homeworks searchQuery).Perm
        (homeworks.filter (fun hw => decide (ContainsQuery engine searchQuery hw))) ∧
      (∀ hw, hw ∈ filteredHomeworks engine homeworks searchQuery ↔
        hw ∈ homeworks ∧ ContainsQuery engine searchQuery hw) ∧
      (∀ hw, (filteredHomeworks engine homeworks searchQuery).count hw =
        if ContainsQuery engine searchQuery hw then homeworks.count hw else 0) ∧
      (∀ hw, IsAscii searchQuery → IsAscii hw.title → IsAscii (hw.description.getD "") →
        (hw ∈ filteredHomeworks engine homeworks searchQuery ↔
          hw ∈ homeworks ∧ ContainsQueryAscii searchQuery hw)) := by
  have hfilter : homeworks.filter (matchesSearch engine searchQuery) =
      homeworks.filter (fun hw => decide (ContainsQuery engine searchQuery hw)) := by
    apply List.filter_congr
    intro hw _
    by_cases h : ContainsQuery engine searchQuery hw
    · rw [decide_eq_true h]
      exact (matchesSearch_iff engine searchQuery hw).mpr h
    · rw [decide_eq_false h]
      exact Bool.eq_false_iff.mpr
        (fun hm => h ((matchesSearch_iff engine searchQuery hw).mp hm))
  have hperm : (filteredHomeworks engine homeworks searchQuery).Perm
      (homeworks.filter (fun hw => decide (ContainsQuery engine searchQuery hw))) := by
    unfold filteredHomeworks
    rw [← hfilter]
    exact arraySort_perm _ _
  have hmem : ∀ hw, hw ∈ filteredHomeworks engine homeworks searchQuery ↔
      hw ∈ homeworks ∧ ContainsQuery engine searchQuery hw := by
    intro hw
    rw [hperm.mem_iff, List.mem_filter, decide_eq_true_iff]
  refine ⟨hperm, hmem, ?_, ?_⟩
  · intro hw
    rw [hperm.count_eq]
    by_cases h : ContainsQuery engine searchQuery hw
    · rw [if_pos h]
      exact List.count_filter (decide_eq_true h)
    · rw [if_neg h]
      apply List.count_eq_zero_of_not_mem
      intro hmem
      exact h (of_decide_eq_true (List.mem_filter.mp hmem).2)
  · intro hw hq ht hd
    rw [hmem hw, containsQuery_ascii_iff engine searchQuery hw hq ht hd]

/-- C1: the item titled "Math Essay" is in the view for the query "ESSAY",
with the ASCII engine. -/
theorem filteredHomeworks_exact_witness :
    (⟨"a", "Math Essay", none, 5, "u", 0⟩ : Homework) ∈
      filteredHomeworks asciiEngine
        [⟨"a", "Math Essay", none, 5, "u", 0⟩, ⟨"b", "Lab", some "titration", 1, "u", 0⟩]
        "ESSAY" :=
  ((filteredHomeworks_exact asciiEngine
      [⟨"a", "Math Essay", none, 5, "u", 0⟩, ⟨"b", "Lab", some "titration", 1, "u", 0⟩]
      "ESSAY").2.2.2 ⟨"a", "Math Essay", none, 5, "u", 0⟩
    (by decide) (by decide) (by decide)).mpr ⟨by decide, by decide⟩

theorem filteredHomeworks_accented :
    filteredHomeworks latin1Engine [⟨"a", "ÉCOLE", none, 5, "u", 0⟩] "école" =
      [⟨"a", "ÉCOLE", none, 5, "u", 0⟩] := by
  decide

theorem filteredHomeworks_empty_query_iff (engine : Engine) (homeworks : List Homework) :
    filteredHomeworks engine homeworks "" = arraySort compareDueDate homeworks ∧
      (filteredHomeworks engine homeworks "" = homeworks ↔ DueDateOrdered homeworks) := by
  have hall : filteredHomeworks engine homeworks "" = arraySort compareDueDate homeworks := by
    unfold filteredHomeworks
    rw [List.filter_eq_self.mpr (fun hw _ => matchesSearch_empty engine hw)]
  refine ⟨hall, ?_⟩
  rw [hall]
  constructor
  · intro h
    rw [← h]
    exact arraySort_ordered homeworks
  · exact arraySort_of_ordered homeworks

theorem installed_ordered (homeworks : List Homework) (h : Installed homeworks) :
    DueDateOrdered homeworks := by
  cases h with
  | initial => exact List.Pairwise.nil
  | pushed snapshotDocs => exact arraySort_ordered _

/-- C2. For every snapshot the state `homeworks` can hold, the empty list it
starts with or a snapshot installed by the listener, the derived view computed
with the empty search query is that snapshot unchanged: the same items in the
same order.  This holds after every notification, whatever the previous
state. -/
theorem filteredHomeworks_empty_query_installed (engine : Engine) :
    (∀ homeworks, Installed homeworks → filteredHomeworks engine homeworks "" = homeworks) ∧
      (∀ (snapshotDocs : List Doc) (prev : DashboardState),
        filteredHomeworks engine (onSnapshotCallback snapshotDocs prev).homeworks "" =
          (onSnapshotCallback snapshotDocs prev).homeworks) := by
  constructor
  · intro homeworks h
    exact (filteredHomeworks_empty_query_iff engine homeworks).2.mpr
      (installed_ordered homeworks h)
  · intro snapshotDocs prev
    exact (filteredHomeworks_empty_query_iff engine _).2.mpr (arraySort_ordered _)

/-- C2: the snapshot installed from two documents delivered in the order later,
earlier comes back unchanged from the empty query. -/
theorem filteredHomeworks_empty_query_installed_witness :
    filteredHomeworks asciiEngine
        (arraySort compareDueDate
          ([⟨"a", ⟨"Biology", none, 172800000, "u", 0, none⟩⟩,
            ⟨"b", ⟨"Art", none, 86400000, "u", 0, none⟩⟩].map snapshotItem)) "" =
      arraySort compareDueDate
        ([⟨"a", ⟨"Biology", none, 172800000, "u", 0, none⟩⟩,
          ⟨"b", ⟨"Art", none, 86400000, "u", 0, none⟩⟩].map snapshotItem) :=
  (filteredHomeworks_empty_query_installed asciiEngine).1 _
    (Installed.pushed
      [⟨"a", ⟨"Biology", none, 172800000, "u", 0, none⟩⟩,
       ⟨"b", ⟨"Art", none, 86400000, "u", 0, none⟩⟩])

/-- C3. The sort by due date is a stable ascending sort: its output is a
permutation of its input, in non-decreasing due-date order, the items of any
one due date come out in their input order, and so any two items with equal
due dates that follow one another in the input do so in the output. -/
theorem arraySort_compareDueDate_stable (l : List Homework) :
    (arraySort compareDueDate l).Perm l ∧
      DueDateOrdered (arraySort compareDueDate l) ∧
      (∀ d : Int, (arraySort compareDueDate l).filter (fun hw => decide (hw.dueDate = d)) =
        l.filter (fun hw => decide (hw.dueDate = d))) ∧
      (∀ a b : Homework, a.dueDate = b.dueDate → List.Sublist [a, b] l →
        List.Sublist [a, b] (arraySort compareDueDate l)) := by
  refine ⟨arraySort_perm _ l, arraySort_ordered l, fun d => arraySort_filter_dueDate d l, ?_⟩
  intro a b hab hsub
  have h1 := hsub.filter (fun hw => decide (hw.dueDate = b.dueDate))
  have h2 : [a, b].filter (fun hw => decide (hw.dueDate = b.dueDate)) = [a, b] := by
    simp [List.filter_cons, hab]
  rw [h2, ← arraySort_filter_dueDate b.dueDate l] at h1
  exact h1.trans (List.filter_sublist _)

/-- C3: stability applied to two items due on the same day with a third,
earlier one between them. -/
theorem arraySort_compareDueDate_stable_witness :
    List.Sublist
      [(⟨"a", "Essay", none, 5, "u", 0⟩ : Homework), ⟨"c", "Quiz", none, 5, "u", 0⟩]
      (arraySort compareDueDate
        [⟨"a", "Essay", none, 5, "u", 0⟩, ⟨"b", "Lab", none, 1, "u", 0⟩,
         ⟨"c", "Quiz", none, 5, "u", 0⟩]) :=
  (arraySort_compareDueDate_stable
    [⟨"a", "Essay", none, 5, "u", 0⟩, ⟨"b", "Lab", none, 1, "u", 0⟩,
     ⟨"c", "Quiz", none, 5, "u", 0⟩]).2.2.2 _ _ rfl
    (List.Sublist.cons₂ _ (List.Sublist.cons _ (List.Sublist.refl _)))

/-! ## Due-date classification -/

theorem diffDays_eq_ceil (due now : Int) :
    diffDays due now = ⌈((due : ℚ) - (now : ℚ)) / 86400000⌉ := by
  have h := Rat.floor_intCast_div_natCast (-(due - now)) 86400000
  have hneg : (((-(due - now) : Int) : ℚ) / ((86400000 : ℕ) : ℚ)) =
      -(((due : ℚ) - (now : ℚ)) / 86400000) := by
    push_cast
    ring
  rw [hneg, Int.floor_neg] at h
  unfold diffDays mathCeilDiv msPerDay
  have hc : ((86400000 : ℕ) : Int) = 1000 * 60 * 60 * 24 := by norm_num
  rw [← hc]
  omega

theorem diffDays_three_days_ago (now : Int) : diffDays (now - 3 * 86400000) now = -3 := by
  unfold diffDays mathCeilDiv msPerDay
  omega

theorem diffDays_in_ten_days (now : Int) : diffDays (now + 10 * 86400000) now = 10 := by
  unfold diffDays mathCeilDiv msPerDay
  omega

theorem diffDays_self (now : Int) : diffDays now now = 0 := by
  unfold diffDays mathCeilDiv msPerDay
  omega

/-- C4. Counterexample: for an item due exactly three days before now the
countdown text is not the string "Overdue by 3 day(s)"; the text the code
returns starts with a space. -/
theorem getCountdownText_three_days_ago_not_bare :
    getCountdownText 0 (0 - 3 * 86400000) ≠ "Overdue by 3 day(s)" ∧
      getCountdownText 0 (0 - 3 * 86400000) = " Overdue by 3 day(s)" := by
  decide

/-- C4, amended. With `D` the ceiling of `(dueDate - now) / 86400000`, the
countdown text is " Overdue by |D| day(s)" when `D < 0`, " Due today!" when
`D = 0`, " Due tomorrow" when `D = 1` and " D days left" when `D > 1`, each
text starting with one space; exactly one of the four conditions holds; an item
due three days before now reads " Overdue by 3 day(s)" and one due ten days
after now reads " 10 days left". -/
theorem getCountdownText_cases (now dueDate D : Int)
    (hD : D = ⌈((dueDate : ℚ) - (now : ℚ)) / 86400000⌉) :
    (D < 0 → getCountdownText now dueDate =
        " Overdue by " ++ toString D.natAbs ++ " day(s)") ∧
      (D = 0 → getCountdownText now dueDate = " Due today!") ∧
      (D = 1 → getCountdownText now dueDate = " Due tomorrow") ∧
      (1 < D → getCountdownText now dueDate = " " ++ toString D ++ " days left") ∧
      ((D < 0 ∧ D ≠ 0 ∧ D ≠ 1 ∧ ¬ 1 < D) ∨ (¬ D < 0 ∧ D = 0 ∧ D ≠ 1 ∧ ¬ 1 < D) ∨
        (¬ D < 0 ∧ D ≠ 0 ∧ D = 1 ∧ ¬ 1 < D) ∨ (¬ D < 0 ∧ D ≠ 0 ∧ D ≠ 1 ∧ 1 < D)) ∧
      getCountdownText now (now - 3 * 86400000) = " Overdue by 3 day(s)" ∧
      getCountdownText now (now + 10 * 86400000) = " 10 days left" := by
  rw [← diffDays_eq_ceil] at hD
  subst hD
  refine ⟨?_, ?_, ?_, ?_, ?_, ?_, ?_⟩
  · intro h
    unfold getCountdownText
    rw [if_pos h]
  · intro h
    unfold getCountdownText
    rw [if_neg (by omega), if_pos h]
  · intro h
    unfold getCountdownText
    rw [if_neg (by omega), if_neg (by omega), if_pos h]
  · intro h
    unfold getCountdownText
    rw [if_neg (by omega), if_neg (by omega), if_neg (by omega)]
  · omega
  · unfold getCountdownText
    rw [diffDays_three_days_ago]
    decide
  · unfold getCountdownText
    rw [diffDays_in_ten_days]
    decide

/-- C4, amended: the case analysis applied to an item due three days before
now, at `now = 0`. -/
theorem getCountdownText_cases_witness :
    getCountdownText 0 (-259200000) = " Overdue by " ++ toString (-3 : Int).natAbs ++ " day(s)" :=
  (getCountdownText_cases 0 (-259200000) (-3)
    (by rw [← diffDays_eq_ceil]; decide)).1 (by decide)

/-- C5. With `D` the ceiling of `(dueDate - now) / 86400000`, the colour is
"#e53935" when `D < 0`, "#fb8c00" when `0 ≤ D ≤ 7` and "#43a047" when `D > 7`;
an item due now is "#fb8c00" and an item due ten days after now is "#43a047". -/
theorem getDueDateColor_cases (now dueDate D : Int)
    (hD : D = ⌈((dueDate : ℚ) - (now : ℚ)) / 86400000⌉) :
    (D < 0 → getDueDateColor now dueDate = "#e53935") ∧
      (0 ≤ D ∧ D ≤ 7 → getDueDateColor now dueDate = "#fb8c00") ∧
      (7 < D → getDueDateColor now dueDate = "#43a047") ∧
      getDueDateColor now now = "#fb8c00" ∧
      getDueDateColor now (now + 10 * 86400000) = "#43a047" := by
  rw [← diffDays_eq_ceil] at hD
  subst hD
  refine ⟨?_, ?_, ?_, ?_, ?_⟩
  · intro h
    unfold getDueDateColor
    rw [if_pos h]
  · intro h
    unfold getDueDateColor
    rw [if_neg (by omega), if_pos h.2]
  · intro h
    unfold getDueDateColor
    rw [if_neg (by omega), if_neg (by omega)]
  · unfold getDueDateColor
    rw [diffDays_self]
    decide
  · unfold getDueDateColor
    rw [diffDays_in_ten_days]
    decide

/-- C5: the case analysis applied to an item due in exactly seven days, at
`now = 0`. -/
theorem getDueDateColor_cases_witness :
    getDueDateColor 0 604800000 = "#fb8c00" :=
  (getDueDateColor_cases 0 604800000 7
    (by rw [← diffDays_eq_ceil]; decide)).2.1 (by decide)

/-! ## Write handlers -/

/-- C6. When the title is empty, `handleSaveHomework` only raises the alert
"Error" / "Please enter a title!": it issues no store call and returns the
state it was given, so title, description, due date and editing id are as they
were, whether or not an editing id is set. -/
theorem handleSaveHomework_empty_title (env : Env) (st : DashboardState)
    (h : st.title = "") :
    (handleSaveHomework env st).effects = [.alert "Error" "Please enter a title!"] ∧
      storeCalls (handleSaveHomework env st).effects = [] ∧
      (handleSaveHomework env st).state = st ∧
      (handleSaveHomework env st).state.title = st.title ∧
      (handleSaveHomework env st).state.description = st.description ∧
      (handleSaveHomework env st).state.dueDate = st.dueDate ∧
      (handleSaveHomework env st).state.editingId = st.editingId := by
  unfold handleSaveHomework
  rw [if_pos h]
  exact ⟨rfl, rfl, rfl, rfl, rfl, rfl, rfl⟩

/-- C6: an empty title with an editing id set issues no store call. -/
theorem handleSaveHomework_empty_title_witness :
    storeCalls (handleSaveHomework ⟨some "u1", 10, 11, fun _ => none⟩
      ⟨"", "chapter 3", 7, some "doc1", [], ""⟩).effects = [] :=
  (handleSaveHomework_empty_title ⟨some "u1", 10, 11, fun _ => none⟩
    ⟨"", "chapter 3", 7, some "doc1", [], ""⟩ rfl).2.1

theorem docThrows_plain_id (id : String) (hid : id ≠ "") (hs : '/' ∉ id.data) :
    docThrows "homeworks" id = false := by
  have h1 : ¬ (['/', '/'] <:+: id.data) :=
    fun h => hs (h.subset (List.mem_cons_self _ _))
  have h2 : id.data.splitOnP (fun c => c == '/') = [id.data] :=
    List.splitOnP_eq_single _ _ (fun c hc hp => hs ((beq_iff_eq.mp hp) ▸ hc))
  have h3 : id.data ≠ [] := by
    intro h
    apply hid
    cases id
    simp_all
  have h4 : (pathSegments "homeworks").length = 1 := by decide
  have h5 : (pathSegments id).length = 1 := by
    unfold pathSegments
    rw [h2]
    cases hdata : id.data with
    | nil => exact absurd hdata h3
    | cons c cs => rfl
  have h6 : ¬ (['/', '/'] <:+: "homeworks".data) := by decide
  unfold docThrows
  rw [h4, h5, decide_eq_false h1, decide_eq_false h6]
  rfl

/-- C7. Counterexample: with the title "Essay" and the editing id set to the
empty string, `handleSaveHomework` issues a create and no update; with the
editing id "a/b", which `doc` refuses, it issues no store call at all. -/
theorem handleSaveHomework_update_falsy_id :
    storeCalls (handleSaveHomework ⟨some "u1", 10, 11, fun _ => none⟩
        ⟨"Essay", "chapter 3", 7, some "", [], ""⟩).effects =
      [.addDoc "homeworks"
        [("title", .str "Essay"), ("description", .str "chapter 3"),
         ("dueDate", .isoString 7), ("userId", .str "u1"), ("createdAt", .date 10)]] ∧
      (handleSaveHomework ⟨some "u1", 10, 11, fun _ => none⟩
        ⟨"Essay", "chapter 3", 7, some "a/b", [], ""⟩).effects =
      [.alert "Error" "Something went wrong"] := by
  decide

/-- C7, amended. With a non-empty title and an editing id that is a non-empty
string without "/", as every identifier assigned by the store is, the store
calls of `handleSaveHomework` are exactly one update of the document
`editingId` in "homeworks", whose payload is the form's title, description and
due date and nothing else: no key of it is "id", "userId" or "createdAt", and
no create is issued. -/
theorem handleSaveHomework_update (env : Env) (st : DashboardState) (id : String)
    (ht : st.title ≠ "") (he : st.editingId = some id) (hid : id ≠ "")
    (hs : '/' ∉ id.data) :
    storeCalls (handleSaveHomework env st).effects =
        [.updateDoc "homeworks" id
          [("title", .str st.title), ("description", .str st.description),
           ("dueDate", .isoString st.dueDate)]] ∧
      (∀ payload, StoreCall.addDoc "homeworks" payload ∉
        storeCalls (handleSaveHomework env st).effects) ∧
      (updatePayload st).map Prod.fst = ["title", "description", "dueDate"] ∧
      "id" ∉ (updatePayload st).map Prod.fst ∧
      "userId" ∉ (updatePayload st).map Prod.fst ∧
      "createdAt" ∉ (updatePayload st).map Prod.fst := by
  have hcalls : storeCalls (handleSaveHomework env st).effects =
      [.updateDoc "homeworks" id (updatePayload st)] := by
    unfold handleSaveHomework
    rw [if_neg ht, he]
    simp only [truthyId, if_neg hid, docThrows_plain_id id hid hs]
    cases env.storeRejects (.updateDoc "homeworks" id (updatePayload st)) <;> rfl
  refine ⟨hcalls, ?_, rfl, by simp [updatePayload], by simp [updatePayload],
    by simp [updatePayload]⟩
  intro payload hmem
  rw [hcalls] at hmem
  simp at hmem

/-- C7, amended: saving an edited item updates that document only. -/
theorem handleSaveHomework_update_witness :
    storeCalls (handleSaveHomework ⟨some "u1", 10, 11, fun _ => none⟩
      ⟨"Essay", "chapter 3", 7, some "doc1", [], ""⟩).effects =
      [.updateDoc "homeworks" "doc1"
        [("title", .str "Essay"), ("description", .str "chapter 3"),
         ("dueDate", .isoString 7)]] :=
  (handleSaveHomework_update ⟨some "u1", 10, 11, fun _ => none⟩
    ⟨"Essay", "chapter 3", 7, some "doc1", [], ""⟩ "doc1" (by decide) rfl (by decide)
    (by decide)).1

/-- C8. With a non-empty title, no editing id and a signed-in user, the store
calls of `handleSaveHomework` are exactly one create in "homeworks" whose
payload is the form's title, description and due date, "userId" set to the
current user's uid and "createdAt" set to the current time; no update is
issued. -/
theorem handleSaveHomework_create (env : Env) (st : DashboardState) (uid : String)
    (ht : st.title ≠ "") (he : st.editingId = none) (hu : env.currentUser = some uid) :
    storeCalls (handleSaveHomework env st).effects =
        [.addDoc "homeworks"
          [("title", .str st.title), ("description", .str st.description),
           ("dueDate", .isoString st.dueDate), ("userId", .str uid),
           ("createdAt", .date env.now)]] ∧
      (∀ docId payload, StoreCall.updateDoc "homeworks" docId payload ∉
        storeCalls (handleSaveHomework env st).effects) := by
  have hcalls : storeCalls (handleSaveHomework env st).effects =
      [.addDoc "homeworks" (createPayload env uid st)] := by
    unfold handleSaveHomework
    rw [if_neg ht, he]
    simp only [truthyId, hu]
    cases env.storeRejects (.addDoc "homeworks" (createPayload env uid st)) <;> rfl
  refine ⟨hcalls, ?_⟩
  intro docId payload hmem
  rw [hcalls] at hmem
  simp at hmem

/-- C8: saving a new item creates one document owned by the current user. -/
theorem handleSaveHomework_create_witness :
    storeCalls (handleSaveHomework ⟨some "u1", 10, 11, fun _ => none⟩
      ⟨"Essay", "chapter 3", 7, none, [], ""⟩).effects =
      [.addDoc "homeworks"
        [("title", .str "Essay"), ("description", .str "chapter 3"),
         ("dueDate", .isoString 7), ("userId", .str "u1"), ("createdAt", .date 10)]] :=
  (handleSaveHomework_create ⟨some "u1", 10, 11, fun _ => none⟩
    ⟨"Essay", "chapter 3", 7, none, [], ""⟩ "u1" (by decide) rfl rfl).1

/-- C9. Neither `handleSaveHomework` nor `handleDelete` writes the snapshot:
whatever the store answers, success or failure, `homeworks` after the call is
`homeworks` before the call. -/
theorem handlers_keep_homeworks (env : Env) (st : DashboardState) (id : String) :
    (handleSaveHomework env st).state.homeworks = st.homeworks ∧
      (handleDelete env id st).state.homeworks = st.homeworks := by
  constructor
  · unfold handleSaveHomework
    split
    · rfl
    · split
      · split
        · rfl
        · split <;> rfl
      · split
        · rfl
        · split <;> rfl
  · unfold handleDelete
    split
    · rfl
    · split <;> rfl

/-- C10. Counterexample: a store that rejects with "unavailable" and a store
that rejects with "permission-denied" lead to the same outcome, alerts
included, for a delete, for an update and for a create, so the two causes are
not told apart by what is reported. -/
theorem store_failure_cause_not_reported :
    ("unavailable" : String) ≠ "permission-denied" ∧
      handleDelete ⟨some "u1", 10, 11, fun _ => some "unavailable"⟩ "doc1"
          ⟨"Essay", "chapter 3", 7, none, [], ""⟩ =
        handleDelete ⟨some "u1", 10, 11, fun _ => some "permission-denied"⟩ "doc1"
          ⟨"Essay", "chapter 3", 7, none, [], ""⟩ ∧
      handleSaveHomework ⟨some "u1", 10, 11, fun _ => some "unavailable"⟩
          ⟨"Essay", "chapter 3", 7, some "doc1", [], ""⟩ =
        handleSaveHomework ⟨some "u1", 10, 11, fun _ => some "permission-denied"⟩
          ⟨"Essay", "chapter 3", 7, some "doc1", [], ""⟩ ∧
      handleSaveHomework ⟨some "u1", 10, 11, fun _ => some "unavailable"⟩
          ⟨"Essay", "chapter 3", 7, none, [], ""⟩ =
        handleSaveHomework ⟨some "u1", 10, 11, fun _ => some "permission-denied"⟩
          ⟨"Essay", "chapter 3", 7, none, [], ""⟩ ∧
      alerts (handleDelete ⟨some "u1", 10, 11, fun _ => some "unavailable"⟩ "doc1"
          ⟨"Essay", "chapter 3", 7, none, [], ""⟩).effects = [("Error", "Could not delete")] := by
  decide

/-- C10, amended. When the store rejects the call a handler issued, whatever
the cause, `handleSaveHomework` raises exactly the alert "Error" / "Something
went wrong" and `handleDelete` exactly the alert "Error" / "Could not delete",
and the state is the state before the call: the report is a fixed text that
does not contain the cause. -/
theorem store_failure_fixed_alert (env : Env) (st : DashboardState) (id : String) :
    (∀ call cause, call ∈ storeCalls (handleSaveHomework env st).effects →
        env.storeRejects call = some cause →
        alerts (handleSaveHomework env st).effects = [("Error", "Something went wrong")] ∧
          (handleSaveHomework env st).state = st) ∧
      (∀ cause, env.storeRejects (.deleteDoc "homeworks" id) = some cause →
        alerts (handleDelete env id st).effects = [("Error", "Could not delete")] ∧
          (handleDelete env id st).state = st) := by
  constructor
  · intro call cause hmem hrej
    unfold handleSaveHomework at hmem ⊢
    by_cases ht : st.title = ""
    · simp [ht, storeCalls] at hmem
    · simp only [if_neg ht] at hmem ⊢
      cases hid : truthyId st.editingId with
      | some docId =>
        simp only [hid] at hmem ⊢
        by_cases hdoc : docThrows "homeworks" docId = true
        · simp only [hdoc, if_true] at hmem
          simp [storeCalls] at hmem
        · simp only [hdoc] at hmem ⊢
          cases hres : env.storeRejects (.updateDoc "homeworks" docId (updatePayload st)) with
          | none =>
            simp only [hres] at hmem
            simp [storeCalls] at hmem
            rw [hmem, hres] at hrej
            cases hrej
          | some c => exact ⟨rfl, rfl⟩
      | none =>
        simp only [hid] at hmem ⊢
        cases hu : env.currentUser with
        | none =>
          simp only [hu] at hmem
          simp [storeCalls] at hmem
        | some uid =>
          simp only [hu] at hmem ⊢
          cases hres : env.storeRejects (.addDoc "homeworks" (createPayload env uid st)) with
          | none =>
            simp only [hres] at hmem
            simp [storeCalls] at hmem
            rw [hmem, hres] at hrej
            cases hrej
          | some c => exact ⟨rfl, rfl⟩
  · intro cause hrej
    unfold handleDelete
    rw [hrej]
    split <;> exact ⟨rfl, rfl⟩

/-- C10, amended: a rejected delete, with the cause "permission-denied", is
reported as "Could not delete". -/
theorem store_failure_fixed_alert_witness :
    alerts (handleDelete ⟨some "u1", 10, 11, fun _ => some "permission-denied"⟩ "doc1"
      ⟨"Essay", "chapter 3", 7, none, [], ""⟩).effects = [("Error", "Could not delete")] :=
  ((store_failure_fixed_alert ⟨some "u1", 10, 11, fun _ => some "permission-denied"⟩
    ⟨"Essay", "chapter 3", 7, none, [], ""⟩ "doc1").2 "permission-denied" rfl).1


/-! ## Due-date classification: the rounding boundaries -/

theorem diffDays_eq_iff (due now k : Int) :
    diffDays due now = k ↔ (k - 1) * 86400000 < due - now ∧ due - now ≤ k * 86400000 := by
  unfold diffDays mathCeilDiv msPerDay
  omega

theorem diffDays_neg_iff (due now : Int) : diffDays due now < 0 ↔ due + 86400000 ≤ now := by
  unfold diffDays mathCeilDiv msPerDay
  omega

theorem digitChar_ne_capital_o (k : Nat) (hk : k < 10) : Nat.digitChar k ≠ 'O' := by
  interval_cases k <;> decide

theorem toDigitsCore_head_ne_capital_o (fuel n : Nat) (ds : List Char)
    (h : ∀ c, ds.head? = some c → c ≠ 'O') :
    ∀ c, (Nat.toDigitsCore 10 fuel n ds).head? = some c → c ≠ 'O' := by
  induction fuel generalizing n ds with
  | zero => simpa [Nat.toDigitsCore] using h
  | succ f ih =>
    unfold Nat.toDigitsCore
    simp only []
    split
    · intro c hc
      simp only [List.head?_cons, Option.some.injEq] at hc
      subst hc
      exact digitChar_ne_capital_o _ (Nat.mod_lt _ (by decide))
    · apply ih
      intro c hc
      simp only [List.head?_cons, Option.some.injEq] at hc
      subst hc
      exact digitChar_ne_capital_o _ (Nat.mod_lt _ (by decide))

theorem toString_nonneg_head_ne_capital_o (d : Int) (hd : 0 ≤ d) :
    ∀ c, (toString d).data.head? = some c → c ≠ 'O' := by
  obtain ⟨m, rfl⟩ := Int.eq_ofNat_of_zero_le hd
  show ∀ c, (Nat.toDigits 10 m).head? = some c → c ≠ 'O'
  unfold Nat.toDigits
  exact toDigitsCore_head_ne_capital_o _ _ _ (by simp)

theorem getCountdownText_overdue_iff (now due : Int) :
    IsOverdueText (getCountdownText now due) ↔ diffDays due now < 0 := by
  unfold IsOverdueText getCountdownText
  constructor
  · intro h
    by_contra hneg
    rw [if_neg hneg] at h
    split at h
    · exact absurd h (by decide)
    · split at h
      · exact absurd h (by decide)
      · obtain ⟨t, ht⟩ := h
        have hhead := toString_nonneg_head_ne_capital_o (diffDays due now) (by omega)
        simp only [String.data_append] at ht
        cases hs : (toString (diffDays due now)).data with
        | nil =>
          rw [hs] at ht
          simp at ht
        | cons c cs =>
          rw [hs] at ht
          have hc := hhead c (by rw [hs]; rfl)
          simp at ht
          exact hc ht.1.symm
  · intro h
    rw [if_pos h]
    simp only [String.data_append, List.append_assoc]
    exact List.prefix_append _ _

theorem getDueDateColor_danger_iff (now due : Int) :
    getDueDateColor now due = "#e53935" ↔ diffDays due now < 0 := by
  unfold getDueDateColor
  constructor
  · intro h
    by_contra hneg
    rw [if_neg hneg] at h
    split at h
    · exact absurd h (by decide)
    · exact absurd h (by decide)
  · intro h
    rw [if_pos h]

/-- C13. Counterexample: one millisecond after now lies within the next day,
yet the countdown text is not the string "Due tomorrow", and for an item due
now it is not the string "Due today!"; the texts the code returns start with a
space. -/
theorem getCountdownText_boundary_not_bare :
    ((0 : Int) < 1 ∧ (1 : Int) ≤ 0 + 86400000) ∧
      getCountdownText 0 1 ≠ "Due tomorrow" ∧
      getCountdownText 0 1 = " Due tomorrow" ∧
      getCountdownText 0 0 ≠ "Due today!" ∧
      getCountdownText 0 0 = " Due today!" := by
  decide

/-- C13, amended. Both classifiers use the same `diffDays`, the ceiling of
`(dueDate - now) / 86400000`.  It is negative exactly when the due date lies at
least 86400000 ms before now, and exactly then the colour is "#e53935" and the
countdown text starts with " Overdue by ", so the danger colour is returned
exactly when the overdue text is.  For `now - 1 day < dueDate ≤ now` it is `0`,
the text is " Due today!" and the colour "#fb8c00"; for
`now < dueDate ≤ now + 1 day` it is `1` and the text is " Due tomorrow"; each
text starts with one space. -/
theorem overdue_boundary (now dueDate : Int) :
    diffDays dueDate now = ⌈((dueDate : ℚ) - (now : ℚ)) / 86400000⌉ ∧
      (diffDays dueDate now < 0 ↔ dueDate ≤ now - 86400000) ∧
      (getDueDateColor now dueDate = "#e53935" ↔ dueDate ≤ now - 86400000) ∧
      (IsOverdueText (getCountdownText now dueDate) ↔ dueDate ≤ now - 86400000) ∧
      (getDueDateColor now dueDate = "#e53935" ↔
        IsOverdueText (getCountdownText now dueDate)) ∧
      (now - 86400000 < dueDate ∧ dueDate ≤ now →
        diffDays dueDate now = 0 ∧ getCountdownText now dueDate = " Due today!" ∧
          getDueDateColor now dueDate = "#fb8c00") ∧
      (now < dueDate ∧ dueDate ≤ now + 86400000 →
        diffDays dueDate now = 1 ∧ getCountdownText now dueDate = " Due tomorrow") := by
  have hneg : diffDays dueDate now < 0 ↔ dueDate ≤ now - 86400000 := by
    rw [diffDays_neg_iff]
    omega
  refine ⟨diffDays_eq_ceil dueDate now, hneg, ?_, ?_, ?_, ?_, ?_⟩
  · rw [getDueDateColor_danger_iff, hneg]
  · rw [getCountdownText_overdue_iff, hneg]
  · rw [getDueDateColor_danger_iff, getCountdownText_overdue_iff]
  · intro h
    have h0 : diffDays dueDate now = 0 := (diffDays_eq_iff dueDate now 0).mpr (by omega)
    refine ⟨h0, ?_, ?_⟩
    · unfold getCountdownText
      rw [h0]
      rfl
    · unfold getDueDateColor
      rw [h0]
      rfl
  · intro h
    have h1 : diffDays dueDate now = 1 := (diffDays_eq_iff dueDate now 1).mpr (by omega)
    refine ⟨h1, ?_⟩
    unfold getCountdownText
    rw [h1]
    rfl

/-- C13, amended: an item due twelve hours ago, at `now = 0`, is due today and
shown in the warning colour. -/
theorem overdue_boundary_witness :
    diffDays (-43200000) 0 = 0 ∧ getCountdownText 0 (-43200000) = " Due today!" ∧
      getDueDateColor 0 (-43200000) = "#fb8c00" :=
  (overdue_boundary 0 (-43200000)).2.2.2.2.2.1 ⟨by decide, by decide⟩

/-! ## Firestore listener -/

theorem snapshotItem_id_of_no_stored_id (doc : Doc) (h : doc.data.id = none) :
    (snapshotItem doc).id = doc.id := by
  unfold snapshotItem
  simp only [h]

/-- C11. The snapshot installed by the listener is the due-date sort of the
items built from the documents of the notification, one item per document, the
items of any one due date in payload order; it is the same whatever the
previous state was, it is in non-decreasing due-date order, and applying the
same notification a second time changes nothing. -/
theorem onSnapshotCallback_rebuilds (snapshotDocs : List Doc) (prev other : DashboardState) :
    (onSnapshotCallback snapshotDocs prev).homeworks =
        arraySort compareDueDate (snapshotDocs.map snapshotItem) ∧
      ((onSnapshotCallback snapshotDocs prev).homeworks).Perm (snapshotDocs.map snapshotItem) ∧
      ((onSnapshotCallback snapshotDocs prev).homeworks).length = snapshotDocs.length ∧
      (∀ d : Int,
        ((onSnapshotCallback snapshotDocs prev).homeworks).filter
            (fun hw => decide (hw.dueDate = d)) =
          (snapshotDocs.map snapshotItem).filter (fun hw => decide (hw.dueDate = d))) ∧
      (onSnapshotCallback snapshotDocs prev).homeworks =
        (onSnapshotCallback snapshotDocs other).homeworks ∧
      DueDateOrdered (onSnapshotCallback snapshotDocs prev).homeworks ∧
      onSnapshotCallback snapshotDocs (onSnapshotCallback snapshotDocs prev) =
        onSnapshotCallback snapshotDocs prev := by
  refine ⟨rfl, arraySort_perm _ _, ?_, ?_, rfl, arraySort_ordered _, rfl⟩
  · have h := (arraySort_perm compareDueDate (snapshotDocs.map snapshotItem)).length_eq
    rw [List.length_map] at h
    exact h
  · intro d
    exact arraySort_filter_dueDate d _

/-- C12. At a document whose stored data holds a field `id`, the item takes
that value and not the identifier the store assigned: the document "doc1" with
stored `id` "doc2" and the document "doc2" yield items with the same id and the
same list key, and deleting the first item addresses the document "doc2". -/
theorem snapshotItem_stored_id_overrides :
    (snapshotItem ⟨"doc1", ⟨"Essay", none, 5, "u1", 0, some "doc2"⟩⟩).id = "doc2" ∧
      (snapshotItem ⟨"doc1", ⟨"Essay", none, 5, "u1", 0, some "doc2"⟩⟩).id ≠ "doc1" ∧
      (⟨"doc1", ⟨"Essay", none, 5, "u1", 0, some "doc2"⟩⟩ : Doc).id ≠
        (⟨"doc2", ⟨"Quiz", none, 3, "u1", 0, none⟩⟩ : Doc).id ∧
      keyExtractor (snapshotItem ⟨"doc1", ⟨"Essay", none, 5, "u1", 0, some "doc2"⟩⟩) =
        keyExtractor (snapshotItem ⟨"doc2", ⟨"Quiz", none, 3, "u1", 0, none⟩⟩) ∧
      storeCalls (handleDelete ⟨some "u1", 10, 11, fun _ => none⟩
          (snapshotItem ⟨"doc1", ⟨"Essay", none, 5, "u1", 0, some "doc2"⟩⟩).id
          ⟨"", "", 0, none, [], ""⟩).effects =
        [.deleteDoc "homeworks" "doc2"] := by
  decide

end HomeworkTracker
